import Mathlib

/-!
Verification of the chunk lifecycle and ordered promotion pipeline of
the `ppdb-cloud-functions` repository.

The four Python source files are shallowly embedded as pure Lean
functions.  External collaborators (the chunk registry database, the
BigQuery promoter, the Dataflow job service, the Pub/Sub bus) are
modelled as explicit outcome-valued inputs (`Except`-valued fields of an
environment record), so that every theorem quantifies over all possible
collaborator behaviours.  Each handler returns a trace of the external
calls it performed together with its result, which lets us state both
wire-order properties (what was called, with which arguments, in which
order) and response-contract properties.
-/

namespace Ppdb

/-! ### Common modelling of JSON-like field maps -/

/-- An association list of string keys to string values, standing for a
flat JSON object. -/
abbrev Fields := List (String × String)

/-! ### Promotion coordinator (`src/promote_chunks/main.py`)

The handler `promote_chunks` calls three collaborators in sequence:
`ReplicaChunkDatabase.get_promotable_chunks`,
`ReplicaChunkPromoter.promote_chunks` and
`ReplicaChunkDatabase.mark_chunks_promoted`.  Any of them may raise
`NoPromotableChunksError` or some other exception. -/

/-- An exception that can be raised inside the handler body: either the
`NoPromotableChunksError` control-flow signal or any other exception,
carrying its string rendering `str(e)`. -/
inductive PromoteExc
  | noPromotableChunks
  | other (msg : String)
  deriving DecidableEq, Repr

/-- Outcomes of the three collaborator calls made by the handler.  The
promoter and the marker receive the chunk-id list the handler passes
them, so quantifying over these functions covers every collaborator
behaviour. -/
structure PromoteEnv where
  get_promotable_chunks : Except PromoteExc (List Nat)
  promoter_promote_chunks : List Nat → Except PromoteExc Unit
  mark_chunks_promoted : List Nat → Except PromoteExc Nat

/-- One external call made by the handler, with the argument it passed. -/
inductive PromoteCall
  | getPromotable
  | promoterPromote (ids : List Nat)
  | markPromoted (ids : List Nat)
  deriving DecidableEq, Repr

/-- The JSON body and HTTP status produced by `jsonify(...), code`. -/
structure PromoteResponse where
  ok : Bool
  chunks_promoted : Nat
  status : Nat
  message : Option String
  mode : Option String
  error : Option String
  deriving DecidableEq, Repr

/-- The two `except` branches of the handler: `NoPromotableChunksError`
maps to a 200 no-op success, anything else to a 500 failure carrying
`str(e)`. -/
def promoteExcResponse : PromoteExc → PromoteResponse
  | .noPromotableChunks =>
      { ok := true, chunks_promoted := 0, status := 200,
        message := some "No promotable chunks found", mode := none, error := none }
  | .other msg =>
      { ok := false, chunks_promoted := 0, status := 500,
        message := none, mode := none, error := some msg }

/-- Embedding of the handler body of `promote_chunks` in
`src/promote_chunks/main.py`: fetch the promotable ids, hand the very
same list to the promoter, then mark the same list promoted, with the
whole body wrapped in the two `except` clauses.  Returns the trace of
collaborator calls and the HTTP response. -/
def promote_chunks (env : PromoteEnv) : List PromoteCall × PromoteResponse :=
  match env.get_promotable_chunks with
  | .error e => ([.getPromotable], promoteExcResponse e)
  | .ok promotable_chunks =>
    match env.promoter_promote_chunks promotable_chunks with
    | .error e =>
        ([.getPromotable, .promoterPromote promotable_chunks], promoteExcResponse e)
    | .ok _ =>
      match env.mark_chunks_promoted promotable_chunks with
      | .error e =>
          ([.getPromotable, .promoterPromote promotable_chunks,
            .markPromoted promotable_chunks], promoteExcResponse e)
      | .ok promoted_count =>
          ([.getPromotable, .promoterPromote promotable_chunks,
            .markPromoted promotable_chunks],
           { ok := true, chunks_promoted := promoted_count, status := 200,
             message := none, mode := some "execute", error := none })

/-- Some step of the handler raised an exception other than
`NoPromotableChunksError`, whose string rendering is `msg`. -/
def raisesOther (env : PromoteEnv) (msg : String) : Prop :=
  env.get_promotable_chunks = .error (.other msg) ∨
  (∃ ids, env.get_promotable_chunks = .ok ids ∧
    env.promoter_promote_chunks ids = .error (.other msg)) ∨
  (∃ ids, env.get_promotable_chunks = .ok ids ∧
    env.promoter_promote_chunks ids = .ok () ∧
    env.mark_chunks_promoted ids = .error (.other msg))

/-- Claim C2: whenever `get_promotable_chunks` returns a list of chunk
ids, the handler passes that exact list, unmodified, first to the
promoter and then — only if the promoter call succeeded — to
`mark_chunks_promoted` with the same list, in that order. -/
theorem promoter_then_mark_same_list (env : PromoteEnv) (ids : List Nat)
    (hget : env.get_promotable_chunks = .ok ids) :
    (promote_chunks env).1 =
      [.getPromotable, .promoterPromote ids] ++
        (match env.promoter_promote_chunks ids with
         | .ok _ => [.markPromoted ids]
         | .error _ => []) := by
  cases hp : env.promoter_promote_chunks ids with
  | error e => simp [promote_chunks, hget, hp]
  | ok u =>
    cases hm : env.mark_chunks_promoted ids with
    | error e => simp [promote_chunks, hget, hp, hm]
    | ok n => simp [promote_chunks, hget, hp, hm]

/-- Witness for C2 at a concrete environment: with promotable ids
`[1, 2]` and a succeeding promoter, the trace is the promoter call on
`[1, 2]` followed by the marking call on `[1, 2]`. -/
theorem promoter_then_mark_same_list_witness :
    (promote_chunks
        { get_promotable_chunks := .ok [1, 2],
          promoter_promote_chunks := fun _ => .ok (),
          mark_chunks_promoted := fun ids => .ok ids.length }).1 =
      [.getPromotable, .promoterPromote [1, 2], .markPromoted [1, 2]] := by
  have h := promoter_then_mark_same_list
    { get_promotable_chunks := .ok [1, 2],
      promoter_promote_chunks := fun _ => .ok (),
      mark_chunks_promoted := fun ids => .ok ids.length } [1, 2] rfl
  simpa using h

/-- Claim C3: the HTTP response contract of the handler.  When
`get_promotable_chunks` raises `NoPromotableChunksError` the handler
answers 200 with `ok = true` and `chunks_promoted = 0`; when every step
succeeds it answers 200 with `ok = true` and `chunks_promoted` equal to
the count returned by `mark_chunks_promoted`; when any step raises an
exception other than `NoPromotableChunksError` it answers 500 with
`ok = false`, the error string, and `chunks_promoted = 0`; and the
status is always 200 or 500 (no exception ever propagates). -/
theorem promote_chunks_response_contract (env : PromoteEnv) :
    (env.get_promotable_chunks = .error .noPromotableChunks →
      (promote_chunks env).2 =
        { ok := true, chunks_promoted := 0, status := 200,
          message := some "No promotable chunks found", mode := none, error := none }) ∧
    (∀ ids n, env.get_promotable_chunks = .ok ids →
      env.promoter_promote_chunks ids = .ok () →
      env.mark_chunks_promoted ids = .ok n →
      (promote_chunks env).2 =
        { ok := true, chunks_promoted := n, status := 200,
          message := none, mode := some "execute", error := none }) ∧
    (∀ msg, raisesOther env msg →
      (promote_chunks env).2 =
        { ok := false, chunks_promoted := 0, status := 500,
          message := none, mode := none, error := some msg }) ∧
    ((promote_chunks env).2.status = 200 ∨ (promote_chunks env).2.status = 500) := by
  refine ⟨?_, ?_, ?_, ?_⟩
  · intro hget
    simp [promote_chunks, hget, promoteExcResponse]
  · intro ids n hget hp hm
    simp [promote_chunks, hget, hp, hm]
  · intro msg hro
    rcases hro with hget | ⟨ids, hget, hp⟩ | ⟨ids, hget, hp, hm⟩
    · simp [promote_chunks, hget, promoteExcResponse]
    · simp [promote_chunks, hget, hp, promoteExcResponse]
    · simp [promote_chunks, hget, hp, hm, promoteExcResponse]
  · cases hget : env.get_promotable_chunks with
    | error e => cases e <;> simp [promote_chunks, hget, promoteExcResponse]
    | ok ids =>
      cases hp : env.promoter_promote_chunks ids with
      | error e => cases e <;> simp [promote_chunks, hget, hp, promoteExcResponse]
      | ok u =>
        cases hm : env.mark_chunks_promoted ids with
        | error e => cases e <;> simp [promote_chunks, hget, hp, hm, promoteExcResponse]
        | ok n => simp [promote_chunks, hget, hp, hm]

/-- Witness for C3 at concrete environments: the no-promotable case
answers 200 / ok / 0, and an all-steps-succeed case with
`mark_chunks_promoted` reporting 2 answers 200 / ok / 2. -/
theorem promote_chunks_response_contract_witness :
    (promote_chunks
        { get_promotable_chunks := .error .noPromotableChunks,
          promoter_promote_chunks := fun _ => .ok (),
          mark_chunks_promoted := fun _ => .ok 0 }).2 =
      { ok := true, chunks_promoted := 0, status := 200,
        message := some "No promotable chunks found", mode := none, error := none } ∧
    (promote_chunks
        { get_promotable_chunks := .ok [1, 2],
          promoter_promote_chunks := fun _ => .ok (),
          mark_chunks_promoted := fun ids => .ok ids.length }).2 =
      { ok := true, chunks_promoted := 2, status := 200,
        message := none, mode := some "execute", error := none } := by
  constructor
  · exact (promote_chunks_response_contract
      { get_promotable_chunks := .error .noPromotableChunks,
        promoter_promote_chunks := fun _ => .ok (),
        mark_chunks_promoted := fun _ => .ok 0 }).1 rfl
  · exact (promote_chunks_response_contract
      { get_promotable_chunks := .ok [1, 2],
        promoter_promote_chunks := fun _ => .ok (),
        mark_chunks_promoted := fun ids => .ok ids.length }).2.1 [1, 2] 2 rfl rfl rfl

/-! ### Chunk registry (spec §4.1)

The registry operations `get_promotable_chunks` and
`mark_chunks_promoted` are implemented in the external package
`lsst.ppdb.gcp.db`, which is not part of this repository; only their
callers are.  They are therefore modelled from the spec. -/

/-- The chunk lifecycle states of spec §3. -/
inductive ChunkStatus
  | pending
  | staged
  | promoted
  | failed
  deriving DecidableEq, Repr

/-- One registry record: a chunk id and its status. -/
structure ChunkRecord where
  apdb_replica_chunk : Nat
  status : ChunkStatus
  deriving DecidableEq, Repr

/-- The registry table: one record per chunk (ids are unique by the
invariant of spec §3). -/
abbrev Registry := List ChunkRecord

/-- The status recorded for a chunk id, if any record exists for it. -/
def lookupStatus (reg : Registry) (id : Nat) : Option ChunkStatus :=
  (reg.find? (fun r => r.apdb_replica_chunk == id)).map (fun r => r.status)

/-- Whether the registry records the chunk id as `STAGED`. -/
def isStaged (reg : Registry) (id : Nat) : Bool :=
  lookupStatus reg id == some .staged

/-- The highest chunk id currently recorded as `PROMOTED`, or 0 when no
chunk is promoted (ids are assigned from 1 by the upstream source, spec
§3 and §8). -/
def highestPromoted (reg : Registry) : Nat :=
  (reg.filter (fun r => r.status == .promoted)).foldr
    (fun r m => max r.apdb_replica_chunk m) 0

/-- Modelled from the spec: the body of
`ReplicaChunkDatabase.get_promotable_chunks` (external package
`lsst.ppdb.gcp.db`, absent from this repository).  Spec §4.1: "returns
the ordered sequence of chunk ids that are `STAGED` and form a
contiguous run starting immediately after the highest currently
`PROMOTED` id; empty sequence if none".  The run cannot be longer than
the number of records, so scanning `reg.length` candidate ids suffices. -/
def promotableRun (reg : Registry) : List Nat :=
  (((List.range reg.length).map (fun i => highestPromoted reg + 1 + i)).takeWhile
    (fun id => isStaged reg id))

/-- Modelled from the spec: `get_promotable_chunks` "fails with
`NoPromotableChunksError` when empty" (spec §4.1). -/
def get_promotable_chunks (reg : Registry) : Except PromoteExc (List Nat) :=
  if promotableRun reg = [] then .error .noPromotableChunks
  else .ok (promotableRun reg)

/-- Modelled from the spec: `mark_chunks_promoted(ids)` "atomically sets
`status=PROMOTED` ... for exactly the given ids; returns count updated"
(spec §4.1). -/
def mark_chunks_promoted (reg : Registry) (ids : List Nat) : Registry × Nat :=
  (reg.map (fun r =>
      if ids.contains r.apdb_replica_chunk then { r with status := .promoted } else r),
   (reg.filter (fun r => ids.contains r.apdb_replica_chunk)).length)

/-- The promotion handler environment backed by the modelled registry
and an arbitrary promoter. -/
def registryEnv (reg : Registry) (promoter : List Nat → Except PromoteExc Unit) :
    PromoteEnv :=
  { get_promotable_chunks := get_promotable_chunks reg,
    promoter_promote_chunks := promoter,
    mark_chunks_promoted := fun ids => .ok (mark_chunks_promoted reg ids).2 }

/-- A `takeWhile` that holds on the whole `take k` segment and fails on
the element right after it (if any) yields exactly that segment. -/
theorem takeWhile_eq_take_of_pred {α : Type} (p : α → Bool) :
    ∀ (l : List α) (k : Nat),
      (∀ a ∈ l.take k, p a = true) →
      (∀ a ∈ (l.drop k).head?, p a = false) →
      l.takeWhile p = l.take k := by
  intro l
  induction l with
  | nil => intro k h1 h2; simp
  | cons x t ih =>
    intro k h1 h2
    cases k with
    | zero =>
      have hx : p x = false := h2 x (by simp)
      simp [List.takeWhile_cons, hx]
    | succ j =>
      have hx : p x = true := h1 x (by simp)
      have ht : t.takeWhile p = t.take j := by
        refine ih j ?_ ?_
        · intro a ha
          exact h1 a (by simp [ha])
        · intro a ha
          exact h2 a (by simpa using ha)
      simp [List.takeWhile_cons, hx, ht]

/-- Characterization of the modelled `get_promotable_chunks` run: when
the `k` chunk ids immediately following the highest promoted id are all
staged and the next one is not, the run is exactly those `k` consecutive
ids. -/
theorem promotableRun_eq (reg : Registry) (k : Nat) (hk : k ≤ reg.length)
    (hstaged : ∀ i ∈ List.range k, isStaged reg (highestPromoted reg + 1 + i) = true)
    (hnot : isStaged reg (highestPromoted reg + 1 + k) = false) :
    promotableRun reg = (List.range k).map (fun i => highestPromoted reg + 1 + i) := by
  unfold promotableRun
  have htake :
      ((List.range reg.length).map (fun i => highestPromoted reg + 1 + i)).take k =
        (List.range k).map (fun i => highestPromoted reg + 1 + i) := by
    rw [← List.map_take, List.take_range, Nat.min_eq_left hk]
  rw [takeWhile_eq_take_of_pred _ _ k ?_ ?_, htake]
  · intro a ha
    rw [htake] at ha
    rcases List.mem_map.mp ha with ⟨i, hi, rfl⟩
    exact hstaged i hi
  · intro a ha
    rw [List.head?_drop] at ha
    rcases Nat.lt_or_ge k reg.length with hlt | hge
    · rw [List.getElem?_map, List.getElem?_range hlt] at ha
      simp only [Option.map_some', Option.mem_def, Option.some.injEq] at ha
      rw [← ha]
      exact hnot
    · rw [List.getElem?_eq_none (by simpa using hge)] at ha
      simp at ha

/-- Claim C1: the no-gaps promotion invariant.  For every registry state
in which the `k ≥ 1` chunk ids immediately after the highest promoted id
`p` are staged and the next id `p + k + 1` is not staged,
`get_promotable_chunks` returns exactly the contiguous run
`[p+1, ..., p+k]`, which never includes `p + k + 1` and skips no gap,
and the promotion handler passes exactly that set to the promoter and to
`mark_chunks_promoted`. -/
theorem no_gaps_promotion (reg : Registry) (k : Nat)
    (promoter : List Nat → Except PromoteExc Unit)
    (hk1 : 1 ≤ k) (hk : k ≤ reg.length)
    (hstaged : ∀ i ∈ List.range k, isStaged reg (highestPromoted reg + 1 + i) = true)
    (hnot : isStaged reg (highestPromoted reg + 1 + k) = false)
    (hprom : promoter ((List.range k).map (fun i => highestPromoted reg + 1 + i)) = .ok ()) :
    get_promotable_chunks reg =
      .ok ((List.range k).map (fun i => highestPromoted reg + 1 + i)) ∧
    (highestPromoted reg + 1 + k) ∉
      (List.range k).map (fun i => highestPromoted reg + 1 + i) ∧
    (promote_chunks (registryEnv reg promoter)).1 =
      [.getPromotable,
       .promoterPromote ((List.range k).map (fun i => highestPromoted reg + 1 + i)),
       .markPromoted ((List.range k).map (fun i => highestPromoted reg + 1 + i))] := by
  have hrun := promotableRun_eq reg k hk hstaged hnot
  have hne : (List.range k).map (fun i => highestPromoted reg + 1 + i) ≠ [] := by
    cases k with
    | zero => omega
    | succ j => simp [List.range_succ]
  have hget : get_promotable_chunks reg =
      .ok ((List.range k).map (fun i => highestPromoted reg + 1 + i)) := by
    simp [get_promotable_chunks, hrun, hne]
  refine ⟨hget, ?_, ?_⟩
  · intro hmem
    rcases List.mem_map.mp hmem with ⟨i, hi, heq⟩
    rw [List.mem_range] at hi
    omega
  · simp [promote_chunks, registryEnv, hget, hprom]

/-- Witness for C1 at a concrete registry: chunks 1 and 2 staged, chunk
3 pending, nothing promoted — the promotable run is exactly `[1, 2]` and
the handler promotes exactly that set. -/
theorem no_gaps_promotion_witness :
    get_promotable_chunks [⟨1, .staged⟩, ⟨2, .staged⟩, ⟨3, .pending⟩] = .ok [1, 2] ∧
    (promote_chunks (registryEnv [⟨1, .staged⟩, ⟨2, .staged⟩, ⟨3, .pending⟩]
        (fun _ => .ok ()))).1 =
      [.getPromotable, .promoterPromote [1, 2], .markPromoted [1, 2]] := by
  obtain ⟨h1, h2, h3⟩ := no_gaps_promotion
    [⟨1, .staged⟩, ⟨2, .staged⟩, ⟨3, .pending⟩] 2 (fun _ => .ok ())
    (by decide) (by decide) (by decide) (by decide) rfl
  constructor
  · rw [h1]; rfl
  · rw [h3]; rfl

/-! ### Staging trigger (`src/stage_chunk/main.py`)

`trigger_stage_chunk` decodes the Pub/Sub notification, builds the
Dataflow flex-template launch request and classifies the submission
outcome.  The external calls (base64/UTF-8 decoding of the payload,
`json.loads`, the Dataflow `request.execute()`) are modelled as
outcome-valued inputs. -/

/-- Outcome of building and executing the Dataflow launch request:
a response dictionary, an `HttpError` with its HTTP status, a
`GoogleAPICallError`, or any other exception. -/
inductive SubmitOutcome
  | success (response : Fields)
  | httpError (status : Nat)
  | apiCallError (msg : String)
  | otherError (msg : String)
  deriving DecidableEq, Repr

/-- Environment of `trigger_stage_chunk`: the outcome of decoding
`event["data"]` as base64/UTF-8, the outcome of `json.loads` on the
decoded message, the formatted UTC timestamp, and the outcome of the
job-launch call. -/
structure TriggerEnv where
  decode_payload : Except String String
  json_loads : String → Except String Fields
  timestamp : String
  submit : SubmitOutcome

/-- What the trigger did: whether a job-launch request was submitted,
whether the handler re-raised (causing Pub/Sub redelivery), and the job
name it derived, if it got that far. -/
structure TriggerResult where
  submitted : Bool
  raised : Bool
  job_name : Option String
  deriving DecidableEq, Repr

/-- The result of every early `return` taken before the launch request
is built: nothing submitted, nothing raised. -/
def noSubmitResult : TriggerResult :=
  { submitted := false, raised := false, job_name := none }

/-- The `posixpath.basename` of an object name: the component after the
last slash. -/
def basename (p : String) : String :=
  (p.splitOn "/").getLastD ""

/-- Embedding of `trigger_stage_chunk` in `src/stage_chunk/main.py`:
three guarded decoding stages, each returning (acknowledging) on
failure; then the launch request, whose outcome is classified —
`HttpError` with status 429, 500 or 503 re-raises, any other `HttpError`
status returns, `GoogleAPICallError` re-raises, any other exception
returns, and a successful response returns whether or not it carries the
`job` field. -/
def trigger_stage_chunk (env : TriggerEnv) : TriggerResult :=
  match env.decode_payload with
  | .error _ => noSubmitResult
  | .ok message =>
    match env.json_loads message with
    | .error _ => noSubmitResult
    | .ok data =>
      match data.lookup "bucket", data.lookup "name", data.lookup "dataset" with
      | some _bucket, some objectName, some _dataset_id =>
        let chunk_id := basename objectName
        let job_name := "stage-chunk-" ++ chunk_id ++ "-" ++ env.timestamp
        match env.submit with
        | .success _response =>
            { submitted := true, raised := false, job_name := some job_name }
        | .httpError status =>
            { submitted := true,
              raised := status == 429 || status == 500 || status == 503,
              job_name := some job_name }
        | .apiCallError _ =>
            { submitted := true, raised := true, job_name := some job_name }
        | .otherError _ =>
            { submitted := true, raised := false, job_name := some job_name }
      | _, _, _ => noSubmitResult

/-- Claim C4: submission-outcome classification.  Once the notification
decodes and carries all three keys, the launch request is submitted, and
the handler re-raises exactly when the call failed with an `HttpError`
of status 429, 500 or 503, or with a `GoogleAPICallError`; every other
outcome — any other `HttpError` status, any other exception, or a
successful response with or without the `job` field — returns normally
so the notification is acknowledged. -/
theorem trigger_submission_classification (env : TriggerEnv)
    (message : String) (data : Fields) (bucket objectName dataset : String)
    (hdec : env.decode_payload = .ok message)
    (hjson : env.json_loads message = .ok data)
    (hb : data.lookup "bucket" = some bucket)
    (hn : data.lookup "name" = some objectName)
    (hd : data.lookup "dataset" = some dataset) :
    (trigger_stage_chunk env).submitted = true ∧
    ((trigger_stage_chunk env).raised = true ↔
      ((∃ s, env.submit = .httpError s ∧ (s = 429 ∨ s = 500 ∨ s = 503)) ∨
       (∃ e, env.submit = .apiCallError e))) := by
  cases hs : env.submit with
  | success response =>
    refine ⟨by simp [trigger_stage_chunk, hdec, hjson, hb, hn, hd, hs], ?_⟩
    simp [trigger_stage_chunk, hdec, hjson, hb, hn, hd, hs]
  | httpError status =>
    refine ⟨by simp [trigger_stage_chunk, hdec, hjson, hb, hn, hd, hs], ?_⟩
    simp only [trigger_stage_chunk, hdec, hjson, hb, hn, hd, hs]
    constructor
    · intro h
      refine Or.inl ⟨status, rfl, ?_⟩
      simp only [Bool.or_eq_true, beq_iff_eq] at h
      omega
    · rintro (⟨s, hse, hsv⟩ | ⟨e, hee⟩)
      · cases hse
        simp only [Bool.or_eq_true, beq_iff_eq]
        omega
      · cases hee
  | apiCallError msg =>
    refine ⟨by simp [trigger_stage_chunk, hdec, hjson, hb, hn, hd, hs], ?_⟩
    simp [trigger_stage_chunk, hdec, hjson, hb, hn, hd, hs]
  | otherError msg =>
    refine ⟨by simp [trigger_stage_chunk, hdec, hjson, hb, hn, hd, hs], ?_⟩
    simp [trigger_stage_chunk, hdec, hjson, hb, hn, hd, hs]

/-- Witness for C4 at concrete environments: a well-formed notification
whose launch call fails with HTTP 429 re-raises, and one whose launch
call fails with HTTP 400 is acknowledged without raising. -/
theorem trigger_submission_classification_witness :
    (trigger_stage_chunk
        { decode_payload := .ok "m",
          json_loads := fun _ =>
            .ok [("bucket", "b"), ("name", "chunks/7"), ("dataset", "d")],
          timestamp := "20250101000000",
          submit := .httpError 429 }).raised = true ∧
    (trigger_stage_chunk
        { decode_payload := .ok "m",
          json_loads := fun _ =>
            .ok [("bucket", "b"), ("name", "chunks/7"), ("dataset", "d")],
          timestamp := "20250101000000",
          submit := .httpError 400 }).raised = false := by
  constructor
  · exact (trigger_submission_classification
      { decode_payload := .ok "m",
        json_loads := fun _ =>
          .ok [("bucket", "b"), ("name", "chunks/7"), ("dataset", "d")],
        timestamp := "20250101000000",
        submit := .httpError 429 }
      "m" [("bucket", "b"), ("name", "chunks/7"), ("dataset", "d")]
      "b" "chunks/7" "d" rfl rfl rfl rfl rfl).2.mpr
      (Or.inl ⟨429, rfl, Or.inl rfl⟩)
  · have h := (trigger_submission_classification
      { decode_payload := .ok "m",
        json_loads := fun _ =>
          .ok [("bucket", "b"), ("name", "chunks/7"), ("dataset", "d")],
        timestamp := "20250101000000",
        submit := .httpError 400 }
      "m" [("bucket", "b"), ("name", "chunks/7"), ("dataset", "d")]
      "b" "chunks/7" "d" rfl rfl rfl rfl rfl).2
    by_contra hc
    rcases h.mp (by revert hc; cases htr : (trigger_stage_chunk _).raised <;> simp) with
      ⟨s, hse, hsv⟩ | ⟨e, hee⟩
    · cases hse; omega
    · cases hee

/-- Claim C5: every malformed notification is dropped without a launch
request and without raising — whether the payload fails base64/UTF-8
decoding, fails JSON parsing, or lacks one of the keys `bucket`, `name`,
`dataset`. -/
theorem trigger_malformed_dropped (env : TriggerEnv) :
    ((∃ e, env.decode_payload = .error e) → trigger_stage_chunk env = noSubmitResult) ∧
    (∀ message, env.decode_payload = .ok message →
      (∃ e, env.json_loads message = .error e) →
      trigger_stage_chunk env = noSubmitResult) ∧
    (∀ message data, env.decode_payload = .ok message →
      env.json_loads message = .ok data →
      (data.lookup "bucket" = none ∨ data.lookup "name" = none ∨
        data.lookup "dataset" = none) →
      trigger_stage_chunk env = noSubmitResult) := by
  refine ⟨?_, ?_, ?_⟩
  · rintro ⟨e, he⟩
    simp [trigger_stage_chunk, he]
  · rintro message hdec ⟨e, he⟩
    simp [trigger_stage_chunk, hdec, he]
  · intro message data hdec hjson hkeys
    simp only [trigger_stage_chunk, hdec, hjson]
    cases hb : data.lookup "bucket" <;> cases hn : data.lookup "name" <;>
      cases hd : data.lookup "dataset" <;> simp_all

/-- Witness for C5 at a concrete environment: a notification whose JSON
lacks the `dataset` key is dropped with no submission and no raise. -/
theorem trigger_malformed_dropped_witness :
    trigger_stage_chunk
        { decode_payload := .ok "m",
          json_loads := fun _ => .ok [("bucket", "b"), ("name", "chunks/7")],
          timestamp := "20250101000000",
          submit := .httpError 429 } = noSubmitResult := by
  exact (trigger_malformed_dropped
      { decode_payload := .ok "m",
        json_loads := fun _ => .ok [("bucket", "b"), ("name", "chunks/7")],
        timestamp := "20250101000000",
        submit := .httpError 429 }).2.2
    "m" [("bucket", "b"), ("name", "chunks/7")] rfl rfl (Or.inr (Or.inr rfl))

/-! ### Staging job (`src/stage_chunk/stage_chunk_beam_job.py`)

The Beam job `run` reads the chunk manifest, builds one
read-parquet / write-to-BigQuery pair per table with a nonzero row
count, and then publishes the chunk-staged status event.  The external
effects (manifest download, Pub/Sub publish) are outcome-valued inputs;
the pipeline steps and the publish are recorded in a trace. -/

/-- One entry of the manifest's `table_data` mapping; the JSON field
`row_count` is an integer. -/
structure TableData where
  row_count : Int
  deriving DecidableEq, Repr

/-- The parsed chunk manifest: `table_data` maps table names to their
`TableData`; the key may be absent. -/
structure Manifest where
  table_data : Option (List (String × TableData))
  deriving DecidableEq, Repr

/-- The BigQuery create disposition used by the job: `CREATE_NEVER`
(the staging table must pre-exist). -/
inductive CreateDisposition
  | createNever
  | createIfNeeded
  deriving DecidableEq, Repr

/-- The BigQuery write disposition used by the job: `WRITE_APPEND`
(append-only). -/
inductive WriteDisposition
  | writeAppend
  | writeTruncate
  deriving DecidableEq, Repr

/-- The chunk-status event published to Pub/Sub. -/
structure StatusMessage where
  operation : String
  apdb_replica_chunk : Int
  values : Fields
  deriving DecidableEq, Repr

/-- One externally visible step of the job: reading a Parquet file,
writing a table to BigQuery, or publishing the status event. -/
inductive StageAction
  | readParquet (file : String)
  | writeBigQuery (table : String) (create : CreateDisposition) (write : WriteDisposition)
  | publishStatus (message : StatusMessage)
  deriving DecidableEq, Repr

/-- Whether an action is part of a table load (a read or a BigQuery
write), as opposed to the status publish. -/
def isLoadAction : StageAction → Bool
  | .readParquet _ => true
  | .writeBigQuery _ _ _ => true
  | .publishStatus _ => false

/-- An exception that terminates `run`: the `ValueError`s it raises
itself, a failure to read the manifest, or a publish failure re-raised
by `update_chunk_status`. -/
inductive RunError
  | valueError
  | manifestReadError (msg : String)
  | publishError (msg : String)
  deriving DecidableEq, Repr

/-- Environment of `run`: the pipeline's `temp_location` option, the
chunk id, the outcome of downloading and parsing the manifest, and the
outcome of the Pub/Sub publish of a given message. -/
structure RunEnv where
  temp_location : String
  chunk_id : Int
  read_manifest : Except String Manifest
  publish : StatusMessage → Except String Unit

/-- The status event built by `update_chunk_status`. -/
def statusMessage (chunk_id : Int) : StatusMessage :=
  { operation := "update",
    apdb_replica_chunk := chunk_id,
    values := [("status", "staged")] }

/-- Embedding of `update_chunk_status`: publish the chunk-staged event
once and re-raise any publish failure. -/
def update_chunk_status (publish : StatusMessage → Except String Unit)
    (chunk_id : Int) : List StageAction × Except RunError Unit :=
  let message := statusMessage chunk_id
  match publish message with
  | .ok _ => ([.publishStatus message], .ok ())
  | .error e => ([.publishStatus message], .error (.publishError e))

/-- Embedding of `get_staging_table_name`: prefix the production table
name with an underscore and suffix it with the staging marker. -/
def get_staging_table_name (table_name : String) : String :=
  "_" ++ table_name ++ "_staging"

/-- The per-table loop body of `run`: a table whose `row_count` is 0 is
skipped, any other table is read from its Parquet file and appended into
its pre-existing staging table. -/
def stageTableActions (entries : List (String × TableData)) : List StageAction :=
  entries.flatMap fun e =>
    if e.2.row_count == 0 then []
    else [.readParquet (e.1 ++ ".parquet"),
          .writeBigQuery (get_staging_table_name e.1) .createNever .writeAppend]

/-- Embedding of `run`: require `temp_location`, read the manifest
(re-raising on failure), reject a missing or empty `table_data`, build
the pipeline's per-table loads, then publish the status event through
`update_chunk_status`. -/
def run (env : RunEnv) : List StageAction × Except RunError Unit :=
  if env.temp_location = "" then ([], .error .valueError)
  else
    match env.read_manifest with
    | .error e => ([], .error (.manifestReadError e))
    | .ok manifest =>
      match manifest.table_data with
      | none => ([], .error .valueError)
      | some entries =>
        if entries = [] then ([], .error .valueError)
        else
          let loads := stageTableActions entries
          let pub := update_chunk_status env.publish env.chunk_id
          (loads ++ pub.1, pub.2)

/-- Right cancellation of string concatenation, via the data lists. -/
theorem string_append_right_cancel {a b s : String} (h : a ++ s = b ++ s) : a = b := by
  apply String.ext
  have hd := congrArg String.data h
  simp only [String.data_append] at hd
  exact List.append_cancel_right hd

/-- Left cancellation of string concatenation, via the data lists. -/
theorem string_append_left_cancel {a x y : String} (h : a ++ x = a ++ y) : x = y := by
  apply String.ext
  have hd := congrArg String.data h
  simp only [String.data_append] at hd
  exact List.append_cancel_left hd

/-- The staging-table naming convention is injective. -/
theorem get_staging_table_name_inj {a b : String}
    (h : get_staging_table_name a = get_staging_table_name b) : a = b :=
  string_append_left_cancel (string_append_right_cancel h)

/-- The Parquet file naming convention is injective. -/
theorem parquet_name_inj {a b : String} (h : a ++ ".parquet" = b ++ ".parquet") :
    a = b :=
  string_append_right_cancel h

/-- In an association list with distinct keys, a key determines its
value. -/
theorem assoc_nodup_functional {β : Type} :
    ∀ (entries : List (String × β)), (entries.map Prod.fst).Nodup →
      ∀ (k : String) (v w : β), (k, v) ∈ entries → (k, w) ∈ entries → v = w := by
  intro entries
  induction entries with
  | nil => intro _ k v w hv hw; cases hv
  | cons e t ih =>
    intro hnd k v w hv hw
    rw [List.map_cons, List.nodup_cons] at hnd
    rcases List.mem_cons.mp hv with hv1 | hv1 <;>
      rcases List.mem_cons.mp hw with hw1 | hw1
    · rw [← hv1] at hw1
      exact congrArg Prod.snd hw1.symm
    · exact absurd (List.mem_map.mpr ⟨(k, w), hw1, by rw [← hv1]⟩) hnd.1
    · exact absurd (List.mem_map.mpr ⟨(k, v), hv1, by rw [← hw1]⟩) hnd.1
    · exact ih hnd.2 k v w hv1 hw1

/-- The trace of a successful manifest parse: the per-table loads
followed by exactly one status publish. -/
theorem run_trace_eq (env : RunEnv) (manifest : Manifest)
    (entries : List (String × TableData))
    (htemp : ¬ env.temp_location = "")
    (hm : env.read_manifest = .ok manifest)
    (ht : manifest.table_data = some entries)
    (hne : ¬ entries = []) :
    (run env).1 =
      stageTableActions entries ++ [.publishStatus (statusMessage env.chunk_id)] := by
  cases hp : env.publish (statusMessage env.chunk_id) with
  | ok u => simp [run, htemp, hm, ht, hne, update_chunk_status, hp]
  | error e => simp [run, htemp, hm, ht, hne, update_chunk_status, hp]

/-- Every action produced by the per-table loop is a load action. -/
theorem stageTableActions_all_load (entries : List (String × TableData)) :
    ∀ a ∈ stageTableActions entries, isLoadAction a = true := by
  intro a ha
  rcases List.mem_flatMap.mp ha with ⟨e, _he, hae⟩
  by_cases h0 : e.2.row_count == 0
  · simp [h0] at hae
  · simp only [stageTableActions, h0, if_neg, Bool.false_eq_true, not_false_iff,
      ite_false] at hae
    rcases List.mem_cons.mp hae with rfl | hae
    · rfl
    · rcases List.mem_cons.mp hae with rfl | hae
      · rfl
      · cases hae

/-- Counterexample to C6 as stated: the loop skips only tables whose
`row_count` equals 0, not all non-positive ones.  A manifest entry with
`row_count = -1` is not positive, yet the job still reads its Parquet
file and writes its staging table. -/
theorem stage_positive_counterexample :
    ¬ (0 : Int) < -1 ∧
    (run { temp_location := "gs://tmp", chunk_id := 7,
           read_manifest := .ok { table_data := some [("DiaObject", { row_count := -1 })] },
           publish := fun _ => .ok () }).1 =
      [.readParquet "DiaObject.parquet",
       .writeBigQuery "_DiaObject_staging" .createNever .writeAppend,
       .publishStatus (statusMessage 7)] := by
  constructor
  · decide
  · rfl

/-- Claim C6, amended: for every manifest with a `table_data` mapping
(with distinct table names, as JSON object keys are), the job attempts a
read-and-append load exactly for the tables whose `row_count` is
nonzero — not "positive": a negative count is also loaded — each load
reading the table's Parquet file and appending into the pre-existing
staging table named by prefixing the production name with an underscore
and suffixing it with the staging marker, in append-only write mode with
creation disabled; a table entry with `row_count = 0` never triggers a
read or a staging write. -/
theorem stage_nonzero_loads (env : RunEnv) (manifest : Manifest)
    (entries : List (String × TableData))
    (htemp : ¬ env.temp_location = "")
    (hm : env.read_manifest = .ok manifest)
    (ht : manifest.table_data = some entries)
    (hne : ¬ entries = [])
    (hkeys : (entries.map Prod.fst).Nodup) :
    (∀ nm td, (nm, td) ∈ entries → ¬ td.row_count = 0 →
      StageAction.readParquet (nm ++ ".parquet") ∈ (run env).1 ∧
      StageAction.writeBigQuery (get_staging_table_name nm)
        .createNever .writeAppend ∈ (run env).1) ∧
    (∀ nm td, (nm, td) ∈ entries → td.row_count = 0 →
      StageAction.readParquet (nm ++ ".parquet") ∉ (run env).1 ∧
      ∀ c w, StageAction.writeBigQuery (get_staging_table_name nm) c w ∉ (run env).1) ∧
    (∀ a ∈ (run env).1, isLoadAction a = true →
      ∃ nm td, (nm, td) ∈ entries ∧ ¬ td.row_count = 0 ∧
        (a = .readParquet (nm ++ ".parquet") ∨
         a = .writeBigQuery (get_staging_table_name nm) .createNever .writeAppend)) := by
  have htr := run_trace_eq env manifest entries htemp hm ht hne
  have hmem_flat : ∀ (a : StageAction), a ∈ stageTableActions entries →
      ∃ nm td, (nm, td) ∈ entries ∧ ¬ td.row_count = 0 ∧
        (a = .readParquet (nm ++ ".parquet") ∨
         a = .writeBigQuery (get_staging_table_name nm) .createNever .writeAppend) := by
    intro a ha
    rcases List.mem_flatMap.mp ha with ⟨e, he, hae⟩
    by_cases h0 : e.2.row_count == 0
    · simp [h0] at hae
    · simp only [stageTableActions, h0, Bool.false_eq_true, not_false_iff,
        ite_false] at hae
      refine ⟨e.1, e.2, he, by simpa using h0, ?_⟩
      rcases List.mem_cons.mp hae with rfl | hae
      · exact Or.inl rfl
      · rcases List.mem_cons.mp hae with rfl | hae
        · exact Or.inr rfl
        · cases hae
  refine ⟨?_, ?_, ?_⟩
  · intro nm td hmem h0
    rw [htr]
    constructor
    · refine List.mem_append_left _ (List.mem_flatMap.mpr ⟨(nm, td), hmem, ?_⟩)
      simp [h0]
    · refine List.mem_append_left _ (List.mem_flatMap.mpr ⟨(nm, td), hmem, ?_⟩)
      simp [h0]
  · intro nm td hmem h0
    constructor
    · intro hin
      rw [htr] at hin
      rcases List.mem_append.mp hin with hin | hin
      · rcases hmem_flat _ hin with ⟨nm2, td2, hmem2, h02, heq | heq⟩
        · have hpq : nm ++ ".parquet" = nm2 ++ ".parquet" :=
            StageAction.readParquet.inj heq
          have hnm : nm = nm2 := parquet_name_inj hpq
          rw [← hnm] at hmem2
          exact h02 (assoc_nodup_functional entries hkeys nm td2 td hmem2 hmem ▸ h0)
        · cases heq
      · rcases List.mem_cons.mp hin with heq | hin
        · cases heq
        · cases hin
    · intro c w hin
      rw [htr] at hin
      rcases List.mem_append.mp hin with hin | hin
      · rcases hmem_flat _ hin with ⟨nm2, td2, hmem2, h02, heq | heq⟩
        · cases heq
        · have hst : get_staging_table_name nm = get_staging_table_name nm2 :=
            (StageAction.writeBigQuery.inj heq).1
          have hnm : nm = nm2 := get_staging_table_name_inj hst
          rw [← hnm] at hmem2
          exact h02 (assoc_nodup_functional entries hkeys nm td2 td hmem2 hmem ▸ h0)
      · rcases List.mem_cons.mp hin with heq | hin
        · cases heq
        · cases hin
  · intro a ha hload
    rw [htr] at ha
    rcases List.mem_append.mp ha with ha | ha
    · exact hmem_flat a ha
    · rcases List.mem_cons.mp ha with rfl | ha
      · cases hload
      · cases ha

/-- A concrete two-table manifest: one table with five rows and one
empty table. -/
def manifestTwoTables : Manifest :=
  { table_data := some [("DiaObject", { row_count := 5 }),
                        ("DiaSource", { row_count := 0 })] }

/-- A concrete staging-job environment around `manifestTwoTables` with a
succeeding publish. -/
def runEnvTwoTables : RunEnv :=
  { temp_location := "gs://tmp", chunk_id := 7,
    read_manifest := .ok manifestTwoTables,
    publish := fun _ => .ok () }

/-- Witness for the amended C6 at a concrete manifest: the table with
`row_count = 5` is read and appended into its staging table, while the
table with `row_count = 0` triggers neither a read nor a write. -/
theorem stage_nonzero_loads_witness :
    StageAction.readParquet "DiaObject.parquet" ∈ (run runEnvTwoTables).1 ∧
    StageAction.readParquet "DiaSource.parquet" ∉ (run runEnvTwoTables).1 := by
  have h := stage_nonzero_loads runEnvTwoTables manifestTwoTables
    [("DiaObject", { row_count := 5 }), ("DiaSource", { row_count := 0 })]
    (by decide) rfl rfl (by decide) (by decide)
  exact ⟨(h.1 "DiaObject" { row_count := 5 } (by decide) (by decide)).1,
         (h.2.1 "DiaSource" { row_count := 0 } (by decide) rfl).1⟩

/-- Claim C7: after the table loads, the job emits exactly one status
event — the JSON object with operation `update`, `apdb_replica_chunk`
equal to the chunk id, and values `{status: staged}` — and a failure of
that publish propagates out of the job as a fatal error, while a
successful publish completes the job. -/
theorem staged_event_exactly_once (env : RunEnv) (manifest : Manifest)
    (entries : List (String × TableData))
    (htemp : ¬ env.temp_location = "")
    (hm : env.read_manifest = .ok manifest)
    (ht : manifest.table_data = some entries)
    (hne : ¬ entries = []) :
    (run env).1.filter (fun a => ! isLoadAction a) =
      [.publishStatus { operation := "update",
                        apdb_replica_chunk := env.chunk_id,
                        values := [("status", "staged")] }] ∧
    (∀ e, env.publish (statusMessage env.chunk_id) = .error e →
      (run env).2 = .error (.publishError e)) ∧
    (env.publish (statusMessage env.chunk_id) = .ok () →
      (run env).2 = .ok ()) := by
  have htr := run_trace_eq env manifest entries htemp hm ht hne
  refine ⟨?_, ?_, ?_⟩
  · rw [htr, List.filter_append]
    have hloads : (stageTableActions entries).filter (fun a => ! isLoadAction a) = [] := by
      rw [List.filter_eq_nil_iff]
      intro a ha
      simp [stageTableActions_all_load entries a ha]
    rw [hloads]
    rfl
  · intro e hp
    simp [run, htemp, hm, ht, hne, update_chunk_status, hp]
  · intro hp
    simp [run, htemp, hm, ht, hne, update_chunk_status, hp]

/-- Witness for C7 at the concrete two-table environment: the only
non-load action in the trace is the staged status event for chunk 7,
and the job completes successfully. -/
theorem staged_event_exactly_once_witness :
    (run runEnvTwoTables).1.filter (fun a => ! isLoadAction a) =
      [.publishStatus { operation := "update", apdb_replica_chunk := 7,
                        values := [("status", "staged")] }] ∧
    (run runEnvTwoTables).2 = .ok () := by
  have h := staged_event_exactly_once runEnvTwoTables manifestTwoTables
    [("DiaObject", { row_count := 5 }), ("DiaSource", { row_count := 0 })]
    (by decide) rfl rfl (by decide)
  exact ⟨h.1, h.2.2 rfl⟩

/-- Claim C10: `run` rejects a manifest whose `table_data` is missing
and also one whose `table_data` is present but empty: in both cases it
raises `ValueError` with an empty trace, so no staging write is
attempted and no status event is published. -/
theorem empty_table_data_rejected (env : RunEnv) (manifest : Manifest)
    (htemp : ¬ env.temp_location = "")
    (hm : env.read_manifest = .ok manifest)
    (hfalsy : manifest.table_data = none ∨ manifest.table_data = some []) :
    run env = ([], .error .valueError) := by
  rcases hfalsy with h | h
  · simp [run, htemp, hm, h]
  · simp [run, htemp, hm, h]

/-- Witness for C10 at a concrete environment whose manifest carries an
empty `table_data` mapping: `run` raises `ValueError` and performs no
action. -/
theorem empty_table_data_rejected_witness :
    run { temp_location := "gs://tmp", chunk_id := 7,
          read_manifest := .ok { table_data := some [] },
          publish := fun _ => .ok () } =
      ([], .error .valueError) := by
  exact empty_table_data_rejected
    { temp_location := "gs://tmp", chunk_id := 7,
      read_manifest := .ok { table_data := some [] },
      publish := fun _ => .ok () }
    { table_data := some [] } (by decide) rfl (Or.inr rfl)

/-! ### Chunk tracker (`src/track_chunk/main.py`)

`track_chunk` validates a status event and dispatches it to the registry
via `_insert` or `_update`; its whole body sits inside one `try` whose
`except` clause logs everything. -/

/-- The parsed status-event JSON: `data.get("operation")`,
`data.get("values")` and the optional `apdb_replica_chunk` key. -/
structure TrackMessage where
  operation : Option String
  values : Option Fields
  apdb_replica_chunk : Option Int
  deriving DecidableEq, Repr

/-- The exceptions raised inside the `try` body of `track_chunk`: the
validation failures it raises itself, plus any database failure from
`get_engine`, `get_table`, the UPDATE or the INSERT, and the
`RuntimeError` raised when an INSERT affects no row. -/
inductive TrackError
  | malformedPayload
  | jsonDecodeError
  | missingOperation
  | unsupportedOperation (op : String)
  | emptyValues
  | missingChunkId
  | dbError (msg : String)
  | insertSilentlyFailed
  deriving DecidableEq, Repr

/-- Whether the error is one of the payload-validation failures (as
opposed to a database failure occurring after validation passed). -/
def isValidationError : TrackError → Bool
  | .malformedPayload => true
  | .jsonDecodeError => true
  | .missingOperation => true
  | .unsupportedOperation _ => true
  | .emptyValues => true
  | .missingChunkId => true
  | .dbError _ => false
  | .insertSilentlyFailed => false

/-- Environment of `track_chunk`: the outcome of decoding
`event["data"]`, the outcome of `json.loads`, the outcome of
`get_engine`/`get_table`, and the outcomes of the UPDATE and INSERT
statements (returning the affected row count or failing). -/
structure TrackEnv where
  decode_payload : Except String String
  json_loads : String → Except String TrackMessage
  connect_db : Except String Unit
  db_update : Int → Fields → Except String Nat
  db_insert : Int → Fields → Except String Nat

/-- An externally visible effect of `track_chunk`: connecting to the
database, or executing the UPDATE or INSERT for a chunk id. -/
inductive TrackAction
  | connectDb
  | updateChunk (chunk_id : Int) (values : Fields)
  | insertChunk (chunk_id : Int) (values : Fields)
  deriving DecidableEq, Repr

/-- Embedding of the `try` body of `track_chunk`: decode, parse,
validate `operation` (missing or falsy, then unsupported), `values`
(missing or empty) and `apdb_replica_chunk`, connect to the registry
database, then dispatch to the UPDATE or INSERT; `_insert` raises when
the INSERT affected no row.  Returns the trace of database effects and
the exception, if one was raised. -/
def track_chunk_inner (env : TrackEnv) : List TrackAction × Except TrackError Unit :=
  match env.decode_payload with
  | .error _ => ([], .error .malformedPayload)
  | .ok message =>
    match env.json_loads message with
    | .error _ => ([], .error .jsonDecodeError)
    | .ok data =>
      match data.operation with
      | none => ([], .error .missingOperation)
      | some operation =>
        if operation = "" then ([], .error .missingOperation)
        else if ¬ (operation = "insert" ∨ operation = "update") then
          ([], .error (.unsupportedOperation operation))
        else
          match data.values with
          | none => ([], .error .emptyValues)
          | some values =>
            if values = [] then ([], .error .emptyValues)
            else
              match data.apdb_replica_chunk with
              | none => ([], .error .missingChunkId)
              | some chunk_id =>
                match env.connect_db with
                | .error e => ([.connectDb], .error (.dbError e))
                | .ok _ =>
                  if operation = "update" then
                    match env.db_update chunk_id values with
                    | .ok _ => ([.connectDb, .updateChunk chunk_id values], .ok ())
                    | .error e =>
                        ([.connectDb, .updateChunk chunk_id values], .error (.dbError e))
                  else
                    match env.db_insert chunk_id values with
                    | .ok n =>
                        if n = 0 then
                          ([.connectDb, .insertChunk chunk_id values],
                           .error .insertSilentlyFailed)
                        else ([.connectDb, .insertChunk chunk_id values], .ok ())
                    | .error e =>
                        ([.connectDb, .insertChunk chunk_id values], .error (.dbError e))

/-- What the handler did and what its `except` clause logged. -/
structure TrackResult where
  actions : List TrackAction
  loggedError : Option TrackError
  deriving DecidableEq, Repr

/-- Embedding of `track_chunk`: the `try` body wrapped in the outer
`except Exception` clause, which logs the exception and returns
normally. -/
def track_chunk (env : TrackEnv) : TrackResult :=
  { actions := (track_chunk_inner env).1,
    loggedError :=
      match (track_chunk_inner env).2 with
      | .ok _ => none
      | .error e => some e }

/-- When the `try` body fails validation, it has performed no database
effect: no connection and no UPDATE or INSERT. -/
theorem track_inner_validation_no_actions (env : TrackEnv) :
    ∀ e, (track_chunk_inner env).2 = .error e → isValidationError e = true →
      (track_chunk_inner env).1 = [] := by
  intro e he hv
  unfold track_chunk_inner at he ⊢
  cases hd : env.decode_payload with
  | error _ => simp [hd]
  | ok message =>
    cases hj : env.json_loads message with
    | error _ => simp [hd, hj]
    | ok data =>
      cases ho : data.operation with
      | none => simp [hd, hj, ho]
      | some operation =>
        simp only [hd, hj, ho] at he ⊢
        by_cases hoe : operation = ""
        · simp [hoe]
        · rw [if_neg hoe] at he ⊢
          by_cases hsupp : ¬ (operation = "insert" ∨ operation = "update")
          · simp [hsupp]
          · rw [if_neg hsupp] at he ⊢
            cases hval : data.values with
            | none => simp [hval]
            | some values =>
              simp only [hval] at he ⊢
              by_cases hve : values = []
              · simp [hve]
              · rw [if_neg hve] at he ⊢
                cases hc : data.apdb_replica_chunk with
                | none => simp [hc]
                | some chunk_id =>
                  simp only [hc] at he ⊢
                  exfalso
                  cases hcon : env.connect_db with
                  | error e2 =>
                    simp only [hcon, Except.error.injEq] at he
                    subst he
                    simp [isValidationError] at hv
                  | ok u =>
                    simp only [hcon] at he
                    by_cases hop : operation = "update"
                    · rw [if_pos hop] at he
                      cases hu : env.db_update chunk_id values with
                      | ok n =>
                        simp only [hu] at he
                        exact Except.noConfusion he
                      | error e2 =>
                        simp only [hu, Except.error.injEq] at he
                        subst he
                        simp [isValidationError] at hv
                    · rw [if_neg hop] at he
                      cases hi : env.db_insert chunk_id values with
                      | ok n =>
                        simp only [hi] at he
                        by_cases hn : n = 0
                        · rw [if_pos hn] at he
                          simp only [Except.error.injEq] at he
                          subst he
                          simp [isValidationError] at hv
                        · rw [if_neg hn] at he
                          simp at he
                      | error e2 =>
                        simp only [hi, Except.error.injEq] at he
                        subst he
                        simp [isValidationError] at hv

/-- Claim C8: `track_chunk` never raises past the handler boundary —
every exception of the `try` body, validation failures and database
failures alike, is caught and logged by the outer `except` clause — and
an event that fails validation causes no database connection attempt and
no UPDATE or INSERT. -/
theorem track_chunk_never_raises (env : TrackEnv) :
    ((track_chunk_inner env).2 = .ok () → (track_chunk env).loggedError = none) ∧
    (∀ e, (track_chunk_inner env).2 = .error e →
      track_chunk env =
        { actions := (track_chunk_inner env).1, loggedError := some e }) ∧
    (∀ e, (track_chunk_inner env).2 = .error e → isValidationError e = true →
      (track_chunk env).actions = []) := by
  refine ⟨?_, ?_, ?_⟩
  · intro h
    simp [track_chunk, h]
  · intro e he
    simp [track_chunk, he]
  · intro e he hv
    have h := track_inner_validation_no_actions env e he hv
    simp [track_chunk, h]

/-- Witness for C8 at a concrete event lacking `apdb_replica_chunk`:
`track_chunk` performs no database effect and logs the validation
failure instead of raising. -/
theorem track_chunk_never_raises_witness :
    (track_chunk
        { decode_payload := .ok "m",
          json_loads := fun _ =>
            .ok { operation := some "update",
                  values := some [("status", "staged")],
                  apdb_replica_chunk := none },
          connect_db := .ok (),
          db_update := fun _ _ => .ok 1,
          db_insert := fun _ _ => .ok 1 }).actions = [] ∧
    (track_chunk
        { decode_payload := .ok "m",
          json_loads := fun _ =>
            .ok { operation := some "update",
                  values := some [("status", "staged")],
                  apdb_replica_chunk := none },
          connect_db := .ok (),
          db_update := fun _ _ => .ok 1,
          db_insert := fun _ _ => .ok 1 }).loggedError = some .missingChunkId := by
  have h := track_chunk_never_raises
    { decode_payload := .ok "m",
      json_loads := fun _ =>
        .ok { operation := some "update",
              values := some [("status", "staged")],
              apdb_replica_chunk := none },
      connect_db := .ok (),
      db_update := fun _ _ => .ok 1,
      db_insert := fun _ _ => .ok 1 }
  refine ⟨h.2.2 .missingChunkId rfl rfl, ?_⟩
  rw [h.2.1 .missingChunkId rfl]

/-! ### The `_update` registry operation (`src/track_chunk/main.py`)

`_update` runs `UPDATE "PpdbReplicaChunk" SET <values> WHERE
apdb_replica_chunk = <chunk_id>` in one transaction and inspects
`rowcount`.  The table is modelled relationally: a list of rows, each a
chunk id with its column values; the UPDATE statement merges the given
values into every matching row and reports the number of matched rows. -/

/-- One row of the `PpdbReplicaChunk` table. -/
structure ChunkRow where
  apdb_replica_chunk : Int
  fields : Fields
  deriving DecidableEq, Repr

/-- Set one column of a row: replace the value when the column is
present, append it otherwise. -/
def setField (fields : Fields) (kv : String × String) : Fields :=
  if fields.any (fun p => p.1 == kv.1) then
    fields.map (fun p => if p.1 == kv.1 then kv else p)
  else fields ++ [kv]

/-- The `SET` clause: merge each given column value into the row. -/
def mergeValues (fields : Fields) (values : Fields) : Fields :=
  values.foldl setField fields

/-- The effect of the UPDATE statement on the table: every row whose id
matches gets the values merged in, all other rows are untouched. -/
def sqlUpdateRows (rows : List ChunkRow) (chunk_id : Int) (values : Fields) :
    List ChunkRow :=
  rows.map fun r =>
    if r.apdb_replica_chunk == chunk_id then
      { r with fields := mergeValues r.fields values }
    else r

/-- The `rowcount` of the UPDATE statement: the number of matched rows. -/
def sqlUpdateCount (rows : List ChunkRow) (chunk_id : Int) : Nat :=
  (rows.filter (fun r => r.apdb_replica_chunk == chunk_id)).length

/-- The state after `_update` returns: the table rows, the affected row
count, and whether the zero-rows warning was logged. -/
structure UpdateResult where
  rows : List ChunkRow
  affected_rows : Nat
  warned : Bool
  deriving DecidableEq, Repr

/-- Embedding of `_update`: execute the UPDATE, read `rowcount`, and log
a warning exactly when it is 0.  No exception is raised on 0 rows. -/
def _update (rows : List ChunkRow) (chunk_id : Int) (values : Fields) :
    UpdateResult :=
  let affected_rows := sqlUpdateCount rows chunk_id
  { rows := sqlUpdateRows rows chunk_id values,
    affected_rows := affected_rows,
    warned := affected_rows == 0 }

/-- In a table with unique chunk ids, the UPDATE's `WHERE` clause
matches exactly one row when a row with the id exists. -/
theorem filter_key_length_one :
    ∀ (rows : List ChunkRow) (c : Int),
      (rows.map (fun r => r.apdb_replica_chunk)).Nodup →
      ∀ r ∈ rows, r.apdb_replica_chunk = c →
        (rows.filter (fun x => x.apdb_replica_chunk == c)).length = 1 := by
  intro rows
  induction rows with
  | nil => intro c _ r hr; cases hr
  | cons a t ih =>
    intro c hnodup r hr hc
    rw [List.map_cons, List.nodup_cons] at hnodup
    rcases List.mem_cons.mp hr with rfl | hrt
    · rw [List.filter_cons_of_pos (by simp [hc])]
      have ht : t.filter (fun x => x.apdb_replica_chunk == c) = [] := by
        rw [List.filter_eq_nil_iff]
        intro b hb
        simp only [beq_iff_eq]
        intro hbc
        exact hnodup.1 (List.mem_map.mpr ⟨b, hb, by rw [hbc, hc]⟩)
      rw [ht]
      rfl
    · have ha : ¬ (a.apdb_replica_chunk == c) = true := by
        simp only [beq_iff_eq]
        intro hac
        exact hnodup.1 (List.mem_map.mpr ⟨r, hrt, by rw [hc, ← hac]⟩)
      rw [List.filter_cons, if_neg ha]
      exact ih c hnodup.2 r hrt hc

/-- Claim C9: an UPDATE for a chunk id absent from the registry is a
non-fatal no-op — 0 rows affected, the warning logged, the table
unchanged (in particular, no record created) — while an UPDATE for an
existing id (ids being unique) affects exactly 1 row, whose record it
merges the given fields into; in both cases `_update` returns without
raising and never changes the number of records. -/
theorem update_semantics (rows : List ChunkRow) (chunk_id : Int) (values : Fields)
    (hnodup : (rows.map (fun r => r.apdb_replica_chunk)).Nodup) :
    ((∀ r ∈ rows, ¬ r.apdb_replica_chunk = chunk_id) →
      _update rows chunk_id values =
        { rows := rows, affected_rows := 0, warned := true }) ∧
    (∀ r ∈ rows, r.apdb_replica_chunk = chunk_id →
      (_update rows chunk_id values).affected_rows = 1 ∧
      { apdb_replica_chunk := chunk_id, fields := mergeValues r.fields values } ∈
        (_update rows chunk_id values).rows ∧
      (_update rows chunk_id values).warned = false) ∧
    (_update rows chunk_id values).rows.length = rows.length := by
  refine ⟨?_, ?_, ?_⟩
  · intro habsent
    have hcount : sqlUpdateCount rows chunk_id = 0 := by
      unfold sqlUpdateCount
      rw [List.length_eq_zero, List.filter_eq_nil_iff]
      intro r hr
      simp only [beq_iff_eq]
      exact habsent r hr
    have hrows : sqlUpdateRows rows chunk_id values = rows := by
      unfold sqlUpdateRows
      conv_rhs => rw [← List.map_id rows]
      apply List.map_congr_left
      intro r hr
      rw [if_neg (by simp only [beq_iff_eq]; exact habsent r hr)]
      rfl
    simp [_update, hcount, hrows]
  · intro r hr hc
    have hcount : sqlUpdateCount rows chunk_id = 1 :=
      filter_key_length_one rows chunk_id hnodup r hr hc
    refine ⟨by simp [_update, hcount], ?_, by simp [_update, hcount]⟩
    simp only [_update, sqlUpdateRows]
    refine List.mem_map.mpr ⟨r, hr, ?_⟩
    rw [if_pos (by simp [hc])]
    rw [← hc]
  · simp [_update, sqlUpdateRows]

/-- Witness for C9 at a concrete one-row table: updating the absent id 2
affects 0 rows with a warning and leaves the table unchanged; updating
the present id 1 affects exactly 1 row. -/
theorem update_semantics_witness :
    _update [⟨1, [("status", "staged")]⟩] 2 [("status", "promoted")] =
      { rows := [⟨1, [("status", "staged")]⟩], affected_rows := 0, warned := true } ∧
    (_update [⟨1, [("status", "staged")]⟩] 1 [("status", "promoted")]).affected_rows = 1 := by
  refine ⟨(update_semantics [⟨1, [("status", "staged")]⟩] 2
      [("status", "promoted")] (by decide)).1 (by decide), ?_⟩
  exact ((update_semantics [⟨1, [("status", "staged")]⟩] 1
      [("status", "promoted")] (by decide)).2.1
    ⟨1, [("status", "staged")]⟩ (by decide) rfl).1

end Ppdb
